import Mathlib

/-!
Verification of the listing extraction and ingestion pipeline of the
car-price-predictor repository (src/web_scrapper.py, src/db.py,
src/sql_install.py).

The scraper's per-listing extraction logic is embedded shallowly: a listing
fragment is the tuple of query results the code reads from the markup, the
extraction body of scrape_autoplius is a pure function from a fragment to an
optional ListingRecord, and the SQLite sink (INSERT OR IGNORE on a table whose
ad_id column is UNIQUE) is a pure function on a list of rows.  Python string
primitives used by the code (str.strip, str.split, str.replace with empty
replacement, str.lower, int(), float(), the "in" substring test) are modelled
on List Char, following Python semantics on the relevant inputs.
-/

namespace CarScraper

/-- Warnings emitted through logger.warning in the extraction body of
scrape_autoplius, one constructor per distinct warning site. -/
inductive Warn
  | adIdMissing
  | titleMissing
  | priceParse
  | yearParse
  | volumeParse
  | powerParse
  | engineNoComma
  | mileageParse
  | mileageNoKm
deriving DecidableEq, Repr

/-- Characters stripped by Python str.strip() with no argument (ASCII
whitespace; the unicode extras never occur in the inputs considered here). -/
def isPySpace (c : Char) : Bool :=
  c = ' ' || c = '\t' || c = '\n' || c = '\r' || c = '\x0b' || c = '\x0c'

/-- Python str.strip(): drop leading and trailing whitespace. -/
def pyStrip (l : List Char) : List Char :=
  ((l.dropWhile isPySpace).reverse.dropWhile isPySpace).reverse

/-- Python str.split(sep) for a one-character separator: no collapsing of
adjacent separators, the empty string yields [""]. -/
def splitCh (sep : Char) : List Char → List (List Char)
  | [] => [[]]
  | c :: rest =>
    if c = sep then [] :: splitCh sep rest
    else
      match splitCh sep rest with
      | [] => [[c]]
      | h :: t => (c :: h) :: t

/-- Python str.split(sep, 1) for a one-character separator: the part before
the first occurrence, and the remainder if the separator occurs at all. -/
def splitOnce (sep : Char) : List Char → List Char × Option (List Char)
  | [] => ([], none)
  | c :: rest =>
    if c = sep then ([], some rest)
    else ((c :: (splitOnce sep rest).1, (splitOnce sep rest).2))

/-- Python substring test `pat in s` (true for the empty pattern). -/
def hasSub (pat : List Char) : List Char → Bool
  | [] => pat.isEmpty
  | c :: rest => pat.isPrefixOf (c :: rest) || hasSub pat rest

/-- Fuel-driven scanner behind removeSub; every step consumes at least one
input character, so fuel equal to the input length always suffices, and the
structural recursion on the fuel keeps the definition kernel-reducible. -/
def removeSubF (p : Char) (ps : List Char) : Nat → List Char → List Char
  | 0, l => l
  | _ + 1, [] => []
  | fuel + 1, c :: rest =>
    if (p :: ps).isPrefixOf (c :: rest) then removeSubF p ps fuel (List.drop ps.length rest)
    else c :: removeSubF p ps fuel rest

/-- Python str.replace(pat, "") for a nonempty pattern p :: ps: delete
non-overlapping occurrences left to right. -/
def removeSub (p : Char) (ps : List Char) (l : List Char) : List Char :=
  removeSubF p ps l.length l

/-- Python str.lower() on the ASCII range. -/
def lowerAscii (l : List Char) : List Char :=
  l.map Char.toLower

/-- Numeric value of a list of decimal digit characters. -/
def decDigitsVal (l : List Char) : Nat :=
  l.foldl (fun a c => 10 * a + (c.toNat - 48)) 0

/-- Digit-run scanner of Python int(): decimal digits, where a single
underscore may stand between two digits. -/
def intDigits : Nat → List Char → Option Nat
  | acc, [] => some acc
  | acc, c :: rest =>
    if c.isDigit then intDigits (10 * acc + (c.toNat - 48)) rest
    else if c = '_' then
      match rest with
      | [] => none
      | d :: _ => if d.isDigit then intDigits acc rest else none
    else none

/-- Nonempty digit run starting with a digit, per Python int(). -/
def digitRun? : List Char → Option Nat
  | [] => none
  | c :: rest => if c.isDigit then intDigits 0 (c :: rest) else none

/-- Python int(s) on decimal strings: surrounding whitespace stripped, an
optional single sign, then a nonempty digit run; any other shape raises
ValueError, modelled as none. -/
def pyInt? (l : List Char) : Option ℤ :=
  match pyStrip l with
  | '+' :: rest => (digitRun? rest).map (fun n => (n : ℤ))
  | '-' :: rest => (digitRun? rest).map (fun n => -(n : ℤ))
  | rest => (digitRun? rest).map (fun n => (n : ℤ))

/-- Unsigned decimal-literal forms accepted by Python float(): digits,
digits "." digits, digits ".", or "." digits; the value is taken as an exact
rational.  Scientific notation and inf/nan, which never occur in the inputs
this development evaluates, are outside the modelled grammar. -/
def pyFloatCore (l : List Char) : Option ℚ :=
  match splitCh '.' l with
  | [a] =>
    if !a.isEmpty && a.all Char.isDigit then some (mkRat (decDigitsVal a) 1) else none
  | [a, b] =>
    if !(a ++ b).isEmpty && (a ++ b).all Char.isDigit then
      some (mkRat (decDigitsVal a * 10 ^ b.length + decDigitsVal b) (10 ^ b.length))
    else none
  | _ => none

/-- Python float(s) on finite decimal literals: surrounding whitespace
stripped, an optional single sign, then an unsigned decimal form. -/
def pyFloat? (l : List Char) : Option ℚ :=
  match pyStrip l with
  | '+' :: rest => pyFloatCore rest
  | '-' :: rest => (pyFloatCore rest).map (fun q => -q)
  | rest => pyFloatCore rest

/-- Price cleaning of web_scrapper.py lines 78-79: the element text is
stripped, truncated at the first newline, stripped again, then the
three-character sequence "â‚¬" (the mojibake the source file actually
contains where a euro sign was intended) and all spaces are deleted. -/
def cleanPrice (l : List Char) : List Char :=
  removeSub ' ' [] (removeSub 'â' ['‚', '¬'] (pyStrip ((splitCh '\n' (pyStrip l)).headD [])))

/-- Price conversion of lines 80-84: int() on the cleaned text, a ValueError
degrading to None with a warning. -/
def priceFromText (l : List Char) : Option ℤ × List Warn :=
  match pyInt? (cleanPrice l) with
  | some n => (some n, [])
  | none => (none, [Warn.priceParse])

/-- Engine-info parsing of lines 117-136: if the span text contains a comma it
is split on commas and each part stripped; volume is float() of the first part
with "l." deleted, power is int() of the second part with "kW" deleted, each
failure degrading independently to None with a warning; without a comma both
stay None and a warning is logged. -/
def engineParse (l : List Char) : (Option ℚ × Option ℤ) × List Warn :=
  if hasSub [','] l then
    let parts := (splitCh ',' l).map pyStrip
    if parts.length ≥ 2 then
      let volumeCleaned := pyStrip (removeSub 'l' ['.'] (parts.getD 0 []))
      let vw : Option ℚ × List Warn :=
        match pyFloat? volumeCleaned with
        | some q => (some q, [])
        | none => (none, [Warn.volumeParse])
      let powerCleaned := pyStrip (removeSub 'k' ['W'] (parts.getD 1 []))
      let pw : Option ℤ × List Warn :=
        match pyInt? powerCleaned with
        | some n => (some n, [])
        | none => (none, [Warn.powerParse])
      ((vw.1, pw.1), vw.2 ++ pw.2)
    else ((none, none), [])
  else ((none, none), [Warn.engineNoComma])

/-- Mileage parsing of lines 137-147: if the lowercased span text contains the
substring " km" then "km" and all spaces are deleted from the lowercased text,
the result stripped and fed to int(), a failure degrading to None with a
warning; otherwise mileage stays None and a warning is logged. -/
def mileageParse (l : List Char) : Option ℤ × List Warn :=
  if hasSub [' ', 'k', 'm'] (lowerAscii l) then
    match pyInt? (pyStrip (removeSub ' ' [] (removeSub 'k' ['m'] (lowerAscii l)))) with
    | some n => (some n, [])
    | none => (none, [Warn.mileageParse])
  else (none, [Warn.mileageNoKm])

/-- Year and body type from the title-parameters spans (lines 87-100): span 0
gives the year as int() of its first four characters, span 1 gives the body
type, each guarded by a length check. -/
def titleFields (vals : List (List Char)) : Option ℤ × Option String :=
  ( if vals.length > 0 then pyInt? ((vals.getD 0 []).take 4) else none
  , if vals.length > 1 then some ((vals.getD 1 []).asString) else none )

/-- List indexing as in Python: out of range raises IndexError, modelled in
Except so that index safety of the guarded accesses is a provable statement. -/
def idx {α : Type} : List α → Nat → Except String α
  | [], _ => .error "IndexError: list index out of range"
  | a :: _, 0 => .ok a
  | _ :: t, n + 1 => idx t n

/-- Fields read positionally from the parameters-block spans
(lines 108-147). -/
structure ParamsFields where
  fuel : Option String
  gearbox : Option String
  engineVP : Option ℚ × Option ℤ
  mileage : Option ℤ
deriving DecidableEq, Repr

/-- Fuel from span 0, guarded by the length check of line 113. -/
def fuelE (vals : List (List Char)) : Except String (Option String) :=
  if vals.length > 0 then (idx vals 0).map (fun v => some v.asString) else .ok none

/-- Gearbox from span 1, guarded by the length check of line 115. -/
def gearE (vals : List (List Char)) : Except String (Option String) :=
  if vals.length > 1 then (idx vals 1).map (fun v => some v.asString) else .ok none

/-- Engine volume and power from span 2, guarded by the length check of
line 117. -/
def engineE (vals : List (List Char)) : Except String (Option ℚ × Option ℤ) :=
  if vals.length > 2 then (idx vals 2).map (fun v => (engineParse v).1)
  else .ok (none, none)

/-- Mileage from span 3, guarded by the length check of line 137. -/
def mileE (vals : List (List Char)) : Except String (Option ℤ) :=
  if vals.length > 3 then (idx vals 3).map (fun v => (mileageParse v).1) else .ok none

/-- The parameters-block extraction of lines 108-147 over the stripped span
texts, with indexing that would surface an IndexError through Except. -/
def paramsFieldsE (vals : List (List Char)) : Except String ParamsFields :=
  (fuelE vals).bind fun fuel =>
    (gearE vals).bind fun gearbox =>
      (engineE vals).bind fun engineVP =>
        (mileE vals).map fun mileage =>
          { fuel := fuel, gearbox := gearbox, engineVP := engineVP, mileage := mileage }

/-- Total form of the parameters-block extraction, with each positional field
written with its length guard as in the source. -/
def paramsFields (vals : List (List Char)) : ParamsFields where
  fuel := if vals.length > 0 then some ((vals.getD 0 []).asString) else none
  gearbox := if vals.length > 1 then some ((vals.getD 1 []).asString) else none
  engineVP := if vals.length > 2 then (engineParse (vals.getD 2 [])).1 else (none, none)
  mileage := if vals.length > 3 then (mileageParse (vals.getD 3 [])).1 else none

/-- One listing fragment as the extraction body of scrape_autoplius observes
it: the data-id attribute of the bookmark div when present, the raw text of
the title element when present, the raw text of the pricing element when
present, and the raw span texts of the title-parameters and parameters-block
divs when those divs are present. -/
structure Fragment where
  adId : Option String
  titleText : Option String
  priceText : Option String
  titleSpans : Option (List String)
  blockSpans : Option (List String)
deriving DecidableEq, Repr

/-- The record assembled from one listing (the car_data tuple of line 149,
with ad_id known to be present and nonempty). -/
structure ListingRecord where
  adId : String
  make : String
  model : Option String
  price : Option ℤ
  year : Option ℤ
  bodyType : Option String
  fuel : Option String
  gearbox : Option String
  engineVolume : Option ℚ
  enginePower : Option ℤ
  mileage : Option ℤ
deriving DecidableEq, Repr

/-- The parameters-block result for a fragment: all four fields stay None when
the parameters-block div is absent (lines 103-108). -/
def blockResult (f : Fragment) : Except String ParamsFields :=
  match f.blockSpans with
  | none => .ok { fuel := none, gearbox := none, engineVP := (none, none), mileage := none }
  | some bs => paramsFieldsE (bs.map (fun s => pyStrip s.toList))

/-- Total form of blockResult, used to state that the guarded indexing never
raises. -/
def blockFields (f : Fragment) : ParamsFields :=
  match f.blockSpans with
  | none => { fuel := none, gearbox := none, engineVP := (none, none), mileage := none }
  | some bs => paramsFields (bs.map (fun s => pyStrip s.toList))

/-- The per-listing body of scrape_autoplius (lines 52-154): a listing with no
data-id, or an empty one (line 59 tests Python falsiness), is skipped; a
listing whose title element is missing is skipped (lines 65-67); an IndexError
would be caught by the per-listing handler of line 152 and skip the listing;
otherwise every field degrades independently and a record is produced. -/
def processListing (f : Fragment) : Option ListingRecord :=
  match f.adId with
  | none => none
  | some a =>
    if a = "" then none
    else
      match f.titleText with
      | none => none
      | some rawTitle =>
        match blockResult f with
        | .error _ => none
        | .ok pb =>
          let title := pyStrip rawTitle.toList
          let mm := splitOnce ' ' title
          let yb : Option ℤ × Option String :=
            match f.titleSpans with
            | none => (none, none)
            | some ts => titleFields (ts.map (fun s => pyStrip s.toList))
          some
            { adId := a
              make := mm.1.asString
              model := mm.2.map List.asString
              price := f.priceText.bind fun pt => (priceFromText pt.toList).1
              year := yb.1
              bodyType := yb.2
              fuel := pb.fuel
              gearbox := pb.gearbox
              engineVolume := pb.engineVP.1
              enginePower := pb.engineVP.2
              mileage := pb.mileage }

/-- One row of the cars table (sql_install.py lines 19-34): every column
nullable, ad_id carrying the UNIQUE constraint. -/
structure CarRow where
  adId : Option String
  make : Option String
  model : Option String
  price : Option ℤ
  year : Option ℤ
  bodyType : Option String
  fuel : Option String
  gearbox : Option String
  engineVolume : Option ℚ
  enginePower : Option ℤ
  mileage : Option ℤ
deriving DecidableEq, Repr

/-- The car_data tuple handed to insert_car (line 149). -/
def toRow (r : ListingRecord) : CarRow where
  adId := some r.adId
  make := some r.make
  model := r.model
  price := r.price
  year := r.year
  bodyType := r.bodyType
  fuel := r.fuel
  gearbox := r.gearbox
  engineVolume := r.engineVolume
  enginePower := r.enginePower
  mileage := r.mileage

/-- SQLite UNIQUE conflict on ad_id: two rows conflict only when both carry a
non-NULL ad_id and the values are equal (NULLs never conflict under UNIQUE). -/
def rowConflict (a b : Option String) : Bool :=
  match a, b with
  | some x, some y => x = y
  | _, _ => false

/-- insert_car of db.py lines 5-13: INSERT OR IGNORE into cars, so the new row
is appended unless some stored row already conflicts on ad_id, in which case
the call leaves the table unchanged and reports no error. -/
def insert_car (db : List CarRow) (car : CarRow) : List CarRow :=
  if db.any (fun r => rowConflict r.adId car.adId) then db else db ++ [car]

/-- The sequence of rows handed to insert_car while processing a page's
fragments in order (one call per assembled record, line 150). -/
def sinkCalls (frags : List Fragment) : List CarRow :=
  frags.filterMap fun f => (processListing f).map toRow

/-- The pages actually fetched for one brand (lines 33-49): pages are visited
consecutively from the start page; a page whose fetch fails is logged and
skipped (the loop continues); a page parsed to zero listing fragments breaks
the page loop for this brand.  The fetch collaborator returns none on a load
failure and the page's fragments otherwise. -/
def pagesRun (fetch : String → Nat → Option (List Fragment)) (brand : String) :
    Nat → Nat → List Nat
  | _, 0 => []
  | s, c + 1 =>
    match fetch brand s with
    | none => s :: pagesRun fetch brand (s + 1) c
    | some [] => [s]
    | some (_ :: _) => s :: pagesRun fetch brand (s + 1) c

/-- The (brand, page) pairs fetched by a whole scrape_autoplius run
(lines 31-49): each brand of the list traverses its own page range starting at
the start page. -/
def scrapeRun (fetch : String → Nat → Option (List Fragment)) (brands : List String)
    (startPage pagesPerBrand : Nat) : List (String × Nat) :=
  brands.flatMap fun b => (pagesRun fetch b startPage pagesPerBrand).map fun p => (b, p)

/-- A first row for the Sink idempotence witness (spec example 5, identity
"12345"). -/
def exRow1 : CarRow where
  adId := some "12345"
  make := some "BMW"
  model := some "520d"
  price := some 15000
  year := some 2015
  bodyType := some "Sedanas"
  fuel := some "Dyzelinas"
  gearbox := some "Automatine"
  engineVolume := some 2
  enginePower := some 140
  mileage := some 208500

/-- A second row sharing the identity "12345" but differing in every other
field. -/
def exRow2 : CarRow where
  adId := some "12345"
  make := some "Audi"
  model := none
  price := some 9999
  year := none
  bodyType := none
  fuel := none
  gearbox := none
  engineVolume := none
  enginePower := none
  mileage := none

/-- A concrete fetch collaborator for the pagination witness: page 1 of every
brand parses to zero fragments, later pages to one fragment. -/
def fetchW : String → Nat → Option (List Fragment) :=
  fun _ p => if p = 1 then some [] else some [⟨none, none, none, none, none⟩]

/-! Helper lemmas. -/

theorem idx_ok {α : Type} (l : List α) (n : Nat) (h : n < l.length) (d : α) :
    idx l n = .ok (l.getD n d) := by
  induction l generalizing n with
  | nil => simp at h
  | cons a t ih =>
    cases n with
    | zero => simp [idx]
    | succ m =>
      rw [idx, List.getD_cons_succ]
      exact ih m (by simpa using h)

theorem fuelE_ok (vals : List (List Char)) : fuelE vals = .ok (paramsFields vals).fuel := by
  by_cases h : vals.length > 0
  · simp [fuelE, paramsFields, h, idx_ok vals 0 h ([] : List Char), Except.map]
  · simp [fuelE, paramsFields, h]

theorem gearE_ok (vals : List (List Char)) : gearE vals = .ok (paramsFields vals).gearbox := by
  by_cases h : vals.length > 1
  · simp [gearE, paramsFields, h, idx_ok vals 1 h ([] : List Char), Except.map]
  · simp [gearE, paramsFields, h]

theorem engineE_ok (vals : List (List Char)) :
    engineE vals = .ok (paramsFields vals).engineVP := by
  by_cases h : vals.length > 2
  · simp [engineE, paramsFields, h, idx_ok vals 2 h ([] : List Char), Except.map]
  · simp [engineE, paramsFields, h]

theorem mileE_ok (vals : List (List Char)) : mileE vals = .ok (paramsFields vals).mileage := by
  by_cases h : vals.length > 3
  · simp [mileE, paramsFields, h, idx_ok vals 3 h ([] : List Char), Except.map]
  · simp [mileE, paramsFields, h]

theorem paramsFieldsE_ok (vals : List (List Char)) :
    paramsFieldsE vals = .ok (paramsFields vals) := by
  rw [paramsFieldsE, fuelE_ok, gearE_ok, engineE_ok, mileE_ok]
  rfl

theorem blockResult_ok (f : Fragment) : blockResult f = .ok (blockFields f) := by
  rw [blockResult, blockFields]
  cases f.blockSpans with
  | none => rfl
  | some bs => exact paramsFieldsE_ok _

theorem paramsFields_fuel (vals : List (List Char)) :
    (paramsFields vals).fuel = (vals[0]?).map List.asString := by
  cases vals <;> simp [paramsFields]

theorem paramsFields_gearbox (vals : List (List Char)) :
    (paramsFields vals).gearbox = (vals[1]?).map List.asString := by
  rcases vals with _ | ⟨x, _ | ⟨y, t⟩⟩ <;> simp [paramsFields]

theorem titleFields_snd (vals : List (List Char)) :
    (titleFields vals).2 = (vals[1]?).map List.asString := by
  rcases vals with _ | ⟨x, _ | ⟨y, t⟩⟩ <;> simp [titleFields]

theorem splitOnce_no_sep (sep : Char) (l : List Char) (h : sep ∉ l) :
    splitOnce sep l = (l, none) := by
  induction l with
  | nil => rfl
  | cons c t ih =>
    rw [List.mem_cons, not_or] at h
    rw [splitOnce, if_neg (fun hc => h.1 hc.symm), ih h.2]

theorem splitOnce_first_sep (sep : Char) (l1 l2 : List Char) (h : sep ∉ l1) :
    splitOnce sep (l1 ++ sep :: l2) = (l1, some l2) := by
  induction l1 with
  | nil => simp [splitOnce]
  | cons c t ih =>
    rw [List.mem_cons, not_or] at h
    rw [List.cons_append, splitOnce, if_neg (fun hc => h.1 hc.symm), ih h.2]

theorem pagesRun_mem_le (fetch : String → Nat → Option (List Fragment)) (brand : String) :
    ∀ (c s p : Nat), p ∈ pagesRun fetch brand s c → s ≤ p := by
  intro c
  induction c with
  | zero => intro s p hp; simp [pagesRun] at hp
  | succ n ih =>
    intro s p hp
    rw [pagesRun] at hp
    rcases hfe : fetch brand s with _ | fl
    · rw [hfe] at hp
      rcases List.mem_cons.mp hp with rfl | hp'
      · exact Nat.le_refl p
      · exact Nat.le_trans (Nat.le_succ s) (ih (s + 1) p hp')
    · rw [hfe] at hp
      cases fl with
      | nil => simp at hp; omega
      | cons g gs =>
        rcases List.mem_cons.mp hp with rfl | hp'
        · exact Nat.le_refl p
        · exact Nat.le_trans (Nat.le_succ s) (ih (s + 1) p hp')

theorem pagesRun_stop (fetch : String → Nat → Option (List Fragment)) (brand : String)
    (q : Nat) (hq : fetch brand q = some []) :
    ∀ (c s : Nat), q ∈ pagesRun fetch brand s c →
      ∀ p ∈ pagesRun fetch brand s c, p ≤ q := by
  intro c
  induction c with
  | zero => intro s hqm; simp [pagesRun] at hqm
  | succ n ih =>
    intro s hqm p hpm
    rw [pagesRun] at hqm hpm
    rcases hfe : fetch brand s with _ | fl
    · rw [hfe] at hqm hpm
      have hq' : q ∈ pagesRun fetch brand (s + 1) n := by
        rcases List.mem_cons.mp hqm with rfl | hq'
        · rw [hq] at hfe; cases hfe
        · exact hq'
      rcases List.mem_cons.mp hpm with rfl | hp'
      · exact Nat.le_trans (Nat.le_succ p) (pagesRun_mem_le fetch brand n (p + 1) q hq')
      · exact ih (s + 1) hq' p hp'
    · rw [hfe] at hqm hpm
      cases fl with
      | nil =>
        simp at hqm hpm
        omega
      | cons g gs =>
        have hq' : q ∈ pagesRun fetch brand (s + 1) n := by
          rcases List.mem_cons.mp hqm with rfl | hq'
          · rw [hq] at hfe; cases hfe
          · exact hq'
        rcases List.mem_cons.mp hpm with rfl | hp'
        · exact Nat.le_trans (Nat.le_succ p) (pagesRun_mem_le fetch brand n (p + 1) q hq')
        · exact ih (s + 1) hq' p hp'

theorem pagesRun_start (fetch : String → Nat → Option (List Fragment)) (brand : String)
    (s c : Nat) (hc : 0 < c) : s ∈ pagesRun fetch brand s c := by
  cases c with
  | zero => omega
  | succ n =>
    rw [pagesRun]
    rcases hfe : fetch brand s with _ | fl
    · exact List.mem_cons_self s _
    · cases fl with
      | nil => simp
      | cons g gs => exact List.mem_cons_self s _

theorem scrapeRun_mem (fetch : String → Nat → Option (List Fragment)) (brands : List String)
    (startPage ppb : Nat) (b : String) (p : Nat) :
    (b, p) ∈ scrapeRun fetch brands startPage ppb ↔
      b ∈ brands ∧ p ∈ pagesRun fetch b startPage ppb := by
  simp only [scrapeRun, List.mem_flatMap, List.mem_map, Prod.mk.injEq]
  constructor
  · rintro ⟨b2, hb2, p2, hp2, rfl, rfl⟩
    exact ⟨hb2, hp2⟩
  · rintro ⟨hb, hp⟩
    exact ⟨b, hb, p, hp, rfl, rfl⟩

/-! Claim theorems. -/

/-- C1, counterexample: a fragment whose identity is present ("123") but whose
title element is missing produces no record and no Sink call, refuting the
claim that for every fragment that has an identity no other missing field
aborts the listing. -/
theorem c1_counterexample :
    (⟨some "123", none, none, none, none⟩ : Fragment).adId = some "123" ∧
    processListing ⟨some "123", none, none, none, none⟩ = none ∧
    sinkCalls [⟨some "123", none, none, none, none⟩] = [] := by
  decide

/-- C1, amended: a listing fragment produces a record, and exactly one Sink
call, precisely when its identity attribute is present with a nonempty value
and its title element is present; under those two conditions every other
malformed or missing field degrades to unknown and a record is still produced
and handed to the Sink. -/
theorem c1_amended (f : Fragment) :
    ((processListing f).isSome = true ↔
      ((∃ a, f.adId = some a ∧ a ≠ "") ∧ f.titleText ≠ none)) ∧
    sinkCalls [f] = ((processListing f).map toRow).toList := by
  constructor
  · rcases hf : f.adId with _ | a
    · simp [processListing, hf]
    · by_cases ha : a = ""
      · subst ha
        simp [processListing, hf]
      · rcases ht : f.titleText with _ | t
        · simp [processListing, hf, ht, ha]
        · simp only [processListing, hf, ht, if_neg ha, blockResult_ok f]
          simp [ha]
  · simp only [sinkCalls, List.filterMap_cons, List.filterMap_nil]
    cases processListing f <;> simp

/-- C1, witness: the amended equivalence instantiated at a concrete fragment
with a nonempty identity and a present title element. -/
theorem c1_witness :
    ((processListing ⟨some "11", some "Opel Astra", none, none, none⟩).isSome = true ↔
      ((∃ a, (⟨some "11", some "Opel Astra", none, none, none⟩ : Fragment).adId = some a ∧
          a ≠ "") ∧
        (⟨some "11", some "Opel Astra", none, none, none⟩ : Fragment).titleText ≠ none)) ∧
    sinkCalls [⟨some "11", some "Opel Astra", none, none, none⟩] =
      ((processListing ⟨some "11", some "Opel Astra", none, none, none⟩).map toRow).toList :=
  c1_amended ⟨some "11", some "Opel Astra", none, none, none⟩

/-- C2: on the spec's example price text the cleaning step fails to remove the
euro sign, because the source replaces the mojibake sequence "â‚¬" instead of
"€"; the cleaned text is "15000€", int() raises, and the price degrades to
unknown with a warning (the record is still produced with price None). -/
theorem c2_price_mojibake :
    cleanPrice ("15 000 €\nmonthly from...".toList) = "15000€".toList ∧
    priceFromText ("15 000 €\nmonthly from...".toList) = (none, [Warn.priceParse]) ∧
    (processListing
        ⟨some "2", some "BMW 520d", some "15 000 €\nmonthly from...", none, none⟩).map
      (fun r => r.price) = some none := by
  decide

/-- C3: inserting two rows that share the identity "12345" (more generally,
any identity k absent from the table) leaves exactly one stored row carrying
that identity, with the first-written field values; the second call is a no-op
with no error and no overwrite. -/
theorem c3_upsert_ignore (db : List CarRow) (r1 r2 : CarRow) (k : String)
    (h1 : r1.adId = some k) (h2 : r2.adId = some k)
    (hdb : ∀ r ∈ db, r.adId ≠ some k) :
    insert_car (insert_car db r1) r2 = db ++ [r1] ∧
    ((db ++ [r1]).filter fun r => rowConflict r.adId (some k)).length = 1 := by
  have hconf : ∀ a : Option String, rowConflict a (some k) = true ↔ a = some k := by
    intro a
    cases a <;> simp [rowConflict]
  have e1 : insert_car db r1 = db ++ [r1] := by
    rw [insert_car, if_neg]
    rw [h1]
    simp only [List.any_eq_true, not_exists]
    intro r
    simp only [hconf]
    rintro ⟨hr, hx⟩
    exact hdb r hr hx
  have e2 : insert_car (db ++ [r1]) r2 = db ++ [r1] := by
    rw [insert_car, if_pos]
    rw [h2, List.any_eq_true]
    exact ⟨r1, by simp, (hconf r1.adId).mpr h1⟩
  refine ⟨by rw [e1, e2], ?_⟩
  rw [List.filter_append]
  have hnil : db.filter (fun r => rowConflict r.adId (some k)) = [] := by
    rw [List.filter_eq_nil_iff]
    intro r hr
    simp only [hconf]
    exact hdb r hr

  have pone : [r1].filter (fun r => rowConflict r.adId (some k)) = [r1] := by
    simp [List.filter_cons, (hconf r1.adId).mpr h1]
  rw [hnil, pone, List.nil_append]
  rfl

/-- C3, witness: two concrete rows sharing identity "12345" with different
field values, inserted into an empty table. -/
theorem c3_witness :
    insert_car (insert_car [] exRow1) exRow2 = ([] : List CarRow) ++ [exRow1] ∧
    ((([] : List CarRow) ++ [exRow1]).filter
      fun r => rowConflict r.adId (some "12345")).length = 1 :=
  c3_upsert_ignore [] exRow1 exRow2 "12345" rfl rfl (by simp)

/-- C4: the parameters-block extraction performs every span access behind a
length check, so the Except-modelled indexing never raises, and every
positional field whose index is at least the span count stays unknown,
together with all subsequent positional fields of that list. -/
theorem c4_positional (vals : List (List Char)) (i : Nat) (h : vals.length ≤ i) :
    paramsFieldsE vals = .ok (paramsFields vals) ∧
    (i ≤ 0 → paramsFields vals = ⟨none, none, (none, none), none⟩) ∧
    (i ≤ 1 → (paramsFields vals).gearbox = none ∧
      (paramsFields vals).engineVP = (none, none) ∧ (paramsFields vals).mileage = none) ∧
    (i ≤ 2 → (paramsFields vals).engineVP = (none, none) ∧
      (paramsFields vals).mileage = none) ∧
    (i ≤ 3 → (paramsFields vals).mileage = none) := by
  refine ⟨paramsFieldsE_ok vals, fun h0 => ?_, fun hi1 => ?_, fun hi2 => ?_, fun hi3 => ?_⟩
  · have n0 : ¬ vals.length > 0 := by omega
    have n1 : ¬ vals.length > 1 := by omega
    have n2 : ¬ vals.length > 2 := by omega
    have n3 : ¬ vals.length > 3 := by omega
    simp [paramsFields, n0, n1, n2, n3]
  · have n1 : ¬ vals.length > 1 := by omega
    have n2 : ¬ vals.length > 2 := by omega
    have n3 : ¬ vals.length > 3 := by omega
    simp [paramsFields, n1, n2, n3]
  · have n2 : ¬ vals.length > 2 := by omega
    have n3 : ¬ vals.length > 3 := by omega
    simp [paramsFields, n2, n3]
  · have n3 : ¬ vals.length > 3 := by omega
    simp [paramsFields, n3]

/-- C4, witness: the empty span list, where every positional index is out of
range, yields no index error and all-unknown fields. -/
theorem c4_witness :
    paramsFieldsE ([] : List (List Char)) = .ok (paramsFields []) ∧
    paramsFields ([] : List (List Char)) = ⟨none, none, (none, none), none⟩ :=
  ⟨(c4_positional [] 0 (by decide)).1, (c4_positional [] 0 (by decide)).2.1 (by decide)⟩

/-- C5: an engine-info string without a comma leaves both engine volume and
engine power unknown with the missing-comma warning logged, and on the
input "2.0 l., 140 kW" the result is volume 2.0 (as the rational 2) and
power 140. -/
theorem c5_engine_rules :
    (∀ l : List Char, hasSub [','] l = false →
      engineParse l = ((none, none), [Warn.engineNoComma])) ∧
    engineParse ("2.0 l., 140 kW".toList) = ((some 2, some 140), []) := by
  constructor
  · intro l h
    simp [engineParse, h]
  · decide

/-- C5, witness: a concrete comma-free engine string. -/
theorem c5_witness :
    engineParse ("2.0 l 140 kW".toList) = ((none, none), [Warn.engineNoComma]) :=
  c5_engine_rules.1 ("2.0 l 140 kW".toList) (by decide)

/-- C6, counterexample: "100 km2" does not end with the distance-unit suffix,
yet the code parses mileage 1002 from it, because line 139 tests substring
containment of " km", not an end-of-string suffix. -/
theorem c6_counterexample :
    mileageParse ("100 km2".toList) = (some 1002, []) ∧
    List.isSuffixOf ("km".toList) (lowerAscii ("100 km2".toList)) = false := by
  decide

/-- C6, amended: the check is substring containment of " km" in the lowercased
text, not an end-of-string suffix test; every raw string not containing " km"
case-insensitively yields unknown with a warning, and "208 500 km" parses to
mileage 208500. -/
theorem c6_amended :
    (∀ l : List Char, hasSub [' ', 'k', 'm'] (lowerAscii l) = false →
      mileageParse l = (none, [Warn.mileageNoKm])) ∧
    mileageParse ("208 500 km".toList) = (some 208500, []) := by
  constructor
  · intro l h
    simp [mileageParse, h]
  · decide

/-- C6, witness: the spec's own example of a mileage string without the
suffix. -/
theorem c6_witness : mileageParse ("unknown".toList) = (none, [Warn.mileageNoKm]) :=
  c6_amended.1 ("unknown".toList) (by decide)

/-- C7, counterexample: the title "BMW\t520d" contains whitespace (a tab), yet
the code does not split there: make is the whole title and model is unknown,
because line 70 splits on the space character only, not on whitespace. -/
theorem c7_counterexample :
    (processListing ⟨some "7", some "BMW\t520d", none, none, none⟩).map
      (fun r => (r.make, r.model)) = some ("BMW\t520d", none) ∧
    '\t' ∈ "BMW\t520d".toList ∧ ('\t').isWhitespace = true := by
  decide

/-- C7, amended: the extractor splits the title on the first space character
(U+0020): make is the text before the first space and model the remainder; a
title with no space leaves model unknown; "BMW 520d" yields make "BMW" and
model "520d". -/
theorem c7_amended :
    (∀ l1 l2 : List Char, ' ' ∉ l1 → splitOnce ' ' (l1 ++ ' ' :: l2) = (l1, some l2)) ∧
    (∀ l : List Char, ' ' ∉ l → splitOnce ' ' l = (l, none)) ∧
    (processListing ⟨some "7", some "BMW 520d", none, none, none⟩).map
      (fun r => (r.make, r.model)) = some ("BMW", some "520d") :=
  ⟨fun l1 l2 h => splitOnce_first_sep ' ' l1 l2 h,
   fun l h => splitOnce_no_sep ' ' l h,
   by decide⟩

/-- C7, witness: the split applied at the concrete title "BMW 520d". -/
theorem c7_witness :
    splitOnce ' ' ("BMW".toList ++ ' ' :: "520d".toList) =
      ("BMW".toList, some ("520d".toList)) :=
  c7_amended.1 ("BMW".toList) ("520d".toList) (by decide)

/-- C8, counterexample: a parameters-block span whose text trims to the empty
string is stored as the empty string, not converted to the unknown sentinel,
refuting the claim that an empty string after trimming is treated as
unknown. -/
theorem c8_counterexample :
    (processListing ⟨some "9", some "VW Golf", none, none, some ["  "]⟩).map
      (fun r => r.fuel) = some (some "") := by
  decide

/-- C8, amended: every categorical/text field stores the trimmed text of its
source element or span whenever that element is present, including when the
trimmed text is empty — emptiness is not converted to the unknown sentinel;
only absence of the element or span yields unknown. -/
theorem c8_amended (f : Fragment) (a t : String) (ts bs : List String)
    (ha : f.adId = some a) (hne : a ≠ "") (ht : f.titleText = some t)
    (hts : f.titleSpans = some ts) (hbs : f.blockSpans = some bs) :
    ∃ r, processListing f = some r ∧
      r.make = (splitOnce ' ' (pyStrip t.toList)).1.asString ∧
      r.model = ((splitOnce ' ' (pyStrip t.toList)).2).map List.asString ∧
      r.bodyType = (ts[1]?).map (fun s => (pyStrip s.toList).asString) ∧
      r.fuel = (bs[0]?).map (fun s => (pyStrip s.toList).asString) ∧
      r.gearbox = (bs[1]?).map (fun s => (pyStrip s.toList).asString) := by
  rcases f with ⟨fa, ft, fp, fts, fbs⟩
  obtain rfl : fa = some a := ha
  obtain rfl : ft = some t := ht
  obtain rfl : fts = some ts := hts
  obtain rfl : fbs = some bs := hbs
  have hb := blockResult_ok ⟨some a, some t, fp, some ts, some bs⟩
  simp only [processListing, if_neg hne, hb]
  refine ⟨_, rfl, rfl, rfl, ?_, ?_, ?_⟩
  · simp [blockFields, titleFields_snd, List.getElem?_map, Option.map_map]
    rfl
  · simp [blockFields, paramsFields_fuel, List.getElem?_map, Option.map_map]
    rfl
  · simp [blockFields, paramsFields_gearbox, List.getElem?_map, Option.map_map]
    rfl

/-- C8, witness: a concrete fragment with an all-whitespace first span and a
padded title, showing the trimmed values (including the empty string) stored
verbatim. -/
theorem c8_witness :
    ∃ r, processListing
        ⟨some "9", some " VW Golf ", some "x", some ["2012", "  "],
          some ["  ", "Mechanine"]⟩ = some r ∧
      r.make = (splitOnce ' ' (pyStrip (String.toList " VW Golf "))).1.asString ∧
      r.model = ((splitOnce ' ' (pyStrip (String.toList " VW Golf "))).2).map List.asString ∧
      r.bodyType = ((["2012", "  "] : List String)[1]?).map
        (fun s => (pyStrip s.toList).asString) ∧
      r.fuel = ((["  ", "Mechanine"] : List String)[0]?).map
        (fun s => (pyStrip s.toList).asString) ∧
      r.gearbox = ((["  ", "Mechanine"] : List String)[1]?).map
        (fun s => (pyStrip s.toList).asString) :=
  c8_amended ⟨some "9", some " VW Golf ", some "x", some ["2012", "  "],
    some ["  ", "Mechanine"]⟩ "9" " VW Golf " ["2012", "  "] ["  ", "Mechanine"]
    rfl (by decide) rfl rfl rfl

/-- C9: once a visited page of a brand parses to zero listing fragments, no
later page of that brand is ever fetched; the set of (brand, page) pairs
fetched factors brand by brand, so every brand of the list is still processed,
starting from the start page. -/
theorem c9_pagination (fetch : String → Nat → Option (List Fragment)) (brands : List String)
    (startPage ppb : Nat) (b : String) (q : Nat)
    (hq : fetch b q = some []) (hmem : q ∈ pagesRun fetch b startPage ppb) :
    (∀ p, q < p → (b, p) ∉ scrapeRun fetch brands startPage ppb) ∧
    (∀ b2 p2, (b2, p2) ∈ scrapeRun fetch brands startPage ppb ↔
      b2 ∈ brands ∧ p2 ∈ pagesRun fetch b2 startPage ppb) ∧
    (∀ b2 ∈ brands, 0 < ppb → (b2, startPage) ∈ scrapeRun fetch brands startPage ppb) := by
  refine ⟨?_, fun b2 p2 => scrapeRun_mem fetch brands startPage ppb b2 p2,
    fun b2 hb2 hppb => (scrapeRun_mem fetch brands startPage ppb b2 startPage).mpr
      ⟨hb2, pagesRun_start fetch b2 startPage ppb hppb⟩⟩
  intro p hp hmem2
  have hin := (scrapeRun_mem fetch brands startPage ppb b p).mp hmem2
  have hle := pagesRun_stop fetch b q hq ppb startPage hmem p hin.2
  omega

/-- C9, witness: under a fetch collaborator whose page 1 always parses to zero
fragments, page 2 of the first brand is never fetched while the second brand
is still visited at its start page. -/
theorem c9_witness :
    ("bmw", 2) ∉ scrapeRun fetchW ["bmw", "audi"] 1 3 ∧
    ("audi", 1) ∈ scrapeRun fetchW ["bmw", "audi"] 1 3 :=
  ⟨(c9_pagination fetchW ["bmw", "audi"] 1 3 "bmw" 1 rfl (by decide)).1 2 (by decide),
   (c9_pagination fetchW ["bmw", "audi"] 1 3 "bmw" 1 rfl (by decide)).2.2 "audi"
     (by simp) (by decide)⟩

/-- C10: with a comma present, engine volume and engine power are parsed
independently: on "2.0 l., abc" the volume is the typed value 2.0 while the
power degrades to unknown with its own warning, so the pair is not dropped
atomically. -/
theorem c10_engine_independent :
    hasSub [','] ("2.0 l., abc".toList) = true ∧
    engineParse ("2.0 l., abc".toList) = ((some 2, none), [Warn.powerParse]) := by
  decide

end CarScraper
